import Mathlib

/-!
Verification of the Truth Social client's session and action-orchestration
layer (`packages/client-truthsocial`).  The TypeScript source is shallowly
embedded: network calls and the language-model collaborator are represented
by explicit oracles (lists or functions supplying the outcome of each
external call), and each stateful routine becomes a pure function on an
explicit state record.  Remote item ids are modelled as naturals (the
platform emits numeric, time-increasing ids; the source compares them with
the JavaScript `>` on strings of equal numeric shape).
-/

namespace TruthSocial

/-- Tags for the outbound actions the client can perform on a remote item
(`executedActions` strings in the source). -/
inductive Action where
  | favourite
  | reblog
  | quote
  | reply
  | followBack
deriving DecidableEq, Repr

/-- Shape of a caught request error as inspected by `isGroupError`:
`error?.response?.status`, `error?.response?.data?.error_code`, and the two
`error?.message?.includes(...)` substring tests (modelled as booleans of the
message). -/
structure ErrObj where
  respStatus : Option Nat
  respErrorCode : Option String
  msgIncludesGroupNotFound : Bool
  msgIncludesCannotPost : Bool
deriving DecidableEq, Repr

/-- Helper `isGroupError` from `base-monitor.ts` (identical helper in `base.ts` and
inherited by `search.ts`): HTTP 404 with a group-not-found code or message. -/
def isGroupError (e : ErrObj) : Bool :=
  e.respStatus == some 404 &&
    (e.respErrorCode == some "GROUP_NOT_FOUND" ||
     e.msgIncludesGroupNotFound ||
     e.msgIncludesCannotPost)

/-- The empty object `{}` passed to `isGroupError` at `base-monitor.ts`
lines 146 and 156: every optional chain yields `undefined`. -/
def emptyErr : ErrObj := ⟨none, none, false, false⟩

/-- Outcome of one platform mutation call: success, or a thrown error
carrying the shape `isGroupError` inspects. -/
inductive AttemptResult where
  | ok
  | err (e : ErrObj)
deriving DecidableEq, Repr

/-- The requested action set produced by `generateTweetActions`
(`TruthSocialActionResponse`). -/
structure ActionRequest where
  favourite : Bool
  reblog : Bool
  quote : Bool
  reply : Bool
deriving DecidableEq, Repr

/-- Oracle for one `handlePostActions` run: the outcome of each platform
call, and the generated quote/reply text (`none` when generation returned
empty or was refused by the moderation-phrase check). -/
structure ActionOracle where
  favResult : AttemptResult
  reblogResult : AttemptResult
  quoteGen : Option String
  quoteResult : AttemptResult
  replyGen : Option String
  replyResult : AttemptResult
deriving DecidableEq, Repr

/-- Running state of a `handlePostActions` body: the `executedActions`
accumulator, the trace of platform requests actually issued (in order), and
the `isGroupPost` flag. -/
structure ExecState where
  executedActions : List Action
  attempted : List Action
  isGroupPost : Bool
deriving DecidableEq, Repr

/-- Helpers `handleFavourite` / `handleReblog` of `base-monitor.ts`: issue the call,
swallow any error, and report plain success or failure (the group
classification is logged but not returned). -/
def handleSimpleAction (r : AttemptResult) : Bool :=
  match r with
  | .ok => true
  | .err _ => false

/-- Favourite block of `base-monitor.ts` `handlePostActions` (lines 142-149):
on success push FAVOURITE; otherwise consult `isGroupError({})`. -/
def favouriteStepBM (st : ExecState) (r : AttemptResult) : ExecState :=
  if handleSimpleAction r then
    { st with executedActions := st.executedActions ++ [.favourite],
              attempted := st.attempted ++ [.favourite] }
  else if isGroupError emptyErr then
    { st with attempted := st.attempted ++ [.favourite], isGroupPost := true }
  else
    { st with attempted := st.attempted ++ [.favourite] }

/-- Reblog block of `base-monitor.ts` `handlePostActions` (lines 152-159). -/
def reblogStepBM (st : ExecState) (r : AttemptResult) : ExecState :=
  if handleSimpleAction r then
    { st with executedActions := st.executedActions ++ [.reblog],
              attempted := st.attempted ++ [.reblog] }
  else if isGroupError emptyErr then
    { st with attempted := st.attempted ++ [.reblog], isGroupPost := true }
  else
    { st with attempted := st.attempted ++ [.reblog] }

/-- Helpers `handleQuote` / `handleReply` of `base-monitor.ts`: generate content; if
non-null, issue the status-creation call; all errors are swallowed and yield
`none`.  Returns the posted content on success. -/
def handleGenAction (gen : Option String) (r : AttemptResult) :
    Option String × Bool :=
  match gen with
  | none => (none, false)
  | some content =>
    match r with
    | .ok => (some content, true)
    | .err _ => (none, true)

/-- Quote block of `base-monitor.ts` `handlePostActions` (lines 168-187),
with the follow-up memory write abstracted away. -/
def quoteStepBM (st : ExecState) (gen : Option String) (r : AttemptResult) :
    ExecState :=
  let (content, attempted) := handleGenAction gen r
  let st := if attempted then { st with attempted := st.attempted ++ [.quote] } else st
  match content with
  | some _ => { st with executedActions := st.executedActions ++ [.quote] }
  | none => st

/-- Reply block of `base-monitor.ts` `handlePostActions` (lines 190-209). -/
def replyStepBM (st : ExecState) (gen : Option String) (r : AttemptResult) :
    ExecState :=
  let (content, attempted) := handleGenAction gen r
  let st := if attempted then { st with attempted := st.attempted ++ [.reply] } else st
  match content with
  | some _ => { st with executedActions := st.executedActions ++ [.reply] }
  | none => st

/-- Method `handlePostActions` of `base-monitor.ts` (lines 114-212), the variant the
notifications client inherits.  Favourite, then reblog (guarded by
`!isGroupPost`), then the early return when `isGroupPost`, then quote and
reply. -/
def handlePostActionsBaseMonitor (req : ActionRequest) (o : ActionOracle) :
    ExecState :=
  let st0 : ExecState := ⟨[], [], false⟩
  let st1 := if req.favourite then favouriteStepBM st0 o.favResult else st0
  let st2 := if req.reblog && !st1.isGroupPost then reblogStepBM st1 o.reblogResult else st1
  if st2.isGroupPost then st2
  else
    let st3 := if req.quote then quoteStepBM st2 o.quoteGen o.quoteResult else st2
    let st4 := if req.reply then replyStepBM st3 o.replyGen o.replyResult else st3
    st4

/-- Favourite block of the `search.ts` variant (lines 259-273): the caught
error itself is classified, so a group failure sets `isGroupPost`. -/
def favouriteStepSearch (st : ExecState) (r : AttemptResult) : ExecState :=
  match r with
  | .ok =>
    { st with executedActions := st.executedActions ++ [.favourite],
              attempted := st.attempted ++ [.favourite] }
  | .err e =>
    if isGroupError e then
      { st with attempted := st.attempted ++ [.favourite], isGroupPost := true }
    else
      { st with attempted := st.attempted ++ [.favourite] }

/-- Reblog block of the `search.ts` variant (lines 276-290). -/
def reblogStepSearch (st : ExecState) (r : AttemptResult) : ExecState :=
  match r with
  | .ok =>
    { st with executedActions := st.executedActions ++ [.reblog],
              attempted := st.attempted ++ [.reblog] }
  | .err e =>
    if isGroupError e then
      { st with attempted := st.attempted ++ [.reblog], isGroupPost := true }
    else
      { st with attempted := st.attempted ++ [.reblog] }

/-- Quote block of the `search.ts` variant (lines 299-318): generate, then
post; a thrown error (group or not) is swallowed and QUOTE is not pushed. -/
def quoteStepSearch (st : ExecState) (gen : Option String) (r : AttemptResult) :
    ExecState :=
  match gen with
  | none => st
  | some _ =>
    match r with
    | .ok =>
      { st with executedActions := st.executedActions ++ [.quote],
                attempted := st.attempted ++ [.quote] }
    | .err _ => { st with attempted := st.attempted ++ [.quote] }

/-- Reply block of the `search.ts` variant (lines 321-340). -/
def replyStepSearch (st : ExecState) (gen : Option String) (r : AttemptResult) :
    ExecState :=
  match gen with
  | none => st
  | some _ =>
    match r with
    | .ok =>
      { st with executedActions := st.executedActions ++ [.reply],
                attempted := st.attempted ++ [.reply] }
    | .err _ => { st with attempted := st.attempted ++ [.reply] }

/-- Method `handlePostActions` of `search.ts` (lines 248-343): favourite, reblog
(guarded by `!isGroupPost`), early return on `isGroupPost`, quote, reply. -/
def handlePostActionsSearch (req : ActionRequest) (o : ActionOracle) :
    ExecState :=
  let st0 : ExecState := ⟨[], [], false⟩
  let st1 := if req.favourite then favouriteStepSearch st0 o.favResult else st0
  let st2 := if req.reblog && !st1.isGroupPost then reblogStepSearch st1 o.reblogResult else st1
  if st2.isGroupPost then st2
  else
    let st3 := if req.quote then quoteStepSearch st2 o.quoteGen o.quoteResult else st2
    let st4 := if req.reply then replyStepSearch st3 o.replyGen o.replyResult else st3
    st4

/-- Method `handlePostActions` of `base.ts` (lines 565-668): same as the search
variant except the reblog block is not guarded by `isGroupPost`. -/
def handlePostActionsBase (req : ActionRequest) (o : ActionOracle) :
    ExecState :=
  let st0 : ExecState := ⟨[], [], false⟩
  let st1 := if req.favourite then favouriteStepSearch st0 o.favResult else st0
  let st2 := if req.reblog then reblogStepSearch st1 o.reblogResult else st1
  if st2.isGroupPost then st2
  else
    let st3 := if req.quote then quoteStepSearch st2 o.quoteGen o.quoteResult else st2
    let st4 := if req.reply then replyStepSearch st3 o.replyGen o.replyResult else st3
    st4

/-- Method `executeNotificationActions` of `notifications.ts` (lines 156-192):
for a follow notification with `follow_back` requested, issue the follow
call FIRST; then, if the notification carries a status, run the inherited
`handlePostActions` (base-monitor variant).  Returns the `executedActions`
list and the ordered trace of platform requests issued. -/
def executeNotificationActions (isFollow followBack hasStatus : Bool)
    (followResult : AttemptResult) (req : ActionRequest) (o : ActionOracle) :
    List Action × List Action :=
  let followExec := if isFollow && followBack then
      (if handleSimpleAction followResult then [Action.followBack] else [])
    else []
  let followAtt := if isFollow && followBack then [Action.followBack] else []
  let post := if hasStatus then handlePostActionsBaseMonitor req o
    else ⟨[], [], false⟩
  (followExec ++ post.executedActions, followAtt ++ post.attempted)

/-- One HTTP response as observed by `makeAuthenticatedRequest`
(`resp.ok` and `resp.status`). -/
structure Resp where
  ok : Bool
  status : Nat
deriving DecidableEq, Repr

/-- Result of a `makeAuthenticatedRequest` call chain. `oracleOut` means the
code would issue yet another request beyond the supplied response trace
(the recursion in the source has no bound of its own). -/
inductive ReqOutcome where
  | ok (status : Nat)
  | httpError (status : Nat)
  | loginFailed
  | oracleOut
deriving DecidableEq, Repr

/-- Method `makeAuthenticatedRequest` of `base.ts` (lines 389-486), driven by the
trace of HTTP responses the transport returns for the successive attempts
and the outcomes of the `login()` calls made on each 401.  Source behaviour:
a 2xx response returns its data; a 401 triggers `login()` and then a full
recursive `makeAuthenticatedRequest` with the same arguments; any other
failure throws.  Also returns the number of HTTP attempts issued. -/
def makeAuthenticatedRequest : List Resp → List Bool → ReqOutcome × Nat
  | [], _ => (.oracleOut, 0)
  | r :: rest, logins =>
    if r.ok then (.ok r.status, 1)
    else if r.status == 401 then
      match logins with
      | [] => (.oracleOut, 1)
      | l :: ls =>
        if l then
          let (out, n) := makeAuthenticatedRequest rest ls
          (out, n + 1)
        else (.loginFailed, 1)
    else (.httpError r.status, 1)

/-- Result of `ClientBase.init`. `noAttempt` is the fall-through when the
retry counter starts at zero (the `while` body never runs and `init`
returns without authenticating). -/
inductive InitResult where
  | ok
  | loginExhausted
  | oracleOut
  | noAttempt
deriving DecidableEq, Repr

/-- The login-retry loop of `ClientBase.init` (`base.ts` lines 96-115),
driven by the success/failure of each `login()` attempt.  Returns the list
of back-off delays slept (in milliseconds, `2^(retryLimit - retries) * 1000`
computed after the decrement) and the final result.  The loop throws
("Truth Social login failed after maximum retries") when the decremented
counter reaches zero, without a further delay. -/
def initLoginLoop (retryLimit : Nat) : Nat → List Bool → List Nat × InitResult
  | 0, _ => ([], .noAttempt)
  | _ + 1, [] => ([], .oracleOut)
  | retries + 1, o :: rest =>
    if o then ([], .ok)
    else if retries == 0 then ([], .loginExhausted)
    else
      let d := 2 ^ (retryLimit - retries) * 1000
      let (ds, r) := initLoginLoop retryLimit retries rest
      (d :: ds, r)

/-- Method `ClientBase.init` (`base.ts` lines 70-116) after the encryption-service
setup and the existing-client check: adopt a cached token when present and
valid, otherwise run the full login loop with `retries = retryLimit`. -/
def init (retryLimit : Nat) (cachedTokenValid : Option Bool)
    (loginOutcomes : List Bool) : List Nat × InitResult :=
  match cachedTokenValid with
  | some true => ([], .ok)
  | _ => initLoginLoop retryLimit retryLimit loginOutcomes

/-- An outbox entry (`TruthSocialPostOptions` of `post.ts`). -/
structure TruthSocialPostOptions where
  status : String
  in_reply_to_id : Option String := none
  quote_id : Option String := none
  visibility : Option String := none
deriving DecidableEq, Repr

/-- The mutable fields of `PostClient` touched by the outbox drain. -/
structure PostClientState where
  isPosting : Bool
  postQueue : List TruthSocialPostOptions
deriving DecidableEq, Repr

/-- Method `processNextPost` of `post.ts` (lines 308-327): no-op when posting is
disabled or the queue is empty; otherwise `shift` the head, try
`createPost`, and on a thrown error `unshift` the same entry back to the
front.  `createPostOk` is the oracle saying whether `createPost` succeeds
for a given entry. -/
def processNextPost (createPostOk : TruthSocialPostOptions → Bool)
    (st : PostClientState) : PostClientState :=
  if !st.isPosting || st.postQueue.isEmpty then st
  else
    match st.postQueue with
    | [] => st
    | post :: rest =>
      if createPostOk post then { st with postQueue := rest }
      else { st with postQueue := post :: rest }

/-- Method `getRandomInterval` of `post.ts` (lines 409-411):
`Math.floor(Math.random() * (max - min + 1) + min)`.  The random source is
modelled by a draw reduced into `[0, max - min]`. -/
def getRandomInterval (min max draw : Nat) : Nat :=
  draw % (max - min + 1) + min

/-- The scheduling outcome of `startPostingLoop` (`post.ts` lines 173-197):
`setInterval` is armed ONCE with a single drawn period; the fresh draw made
inside each firing (`nextInterval`) is used only to build the
"Next post scheduled for" log line, never to re-arm the timer. -/
structure PostingSchedule where
  timerPeriod : Nat
  loggedNextIntervals : List Nat
deriving DecidableEq, Repr

/-- Build the schedule `startPostingLoop` produces from the initial random
draw and the draws made inside the successive firings. -/
def startPostingLoopSchedule (minMs maxMs draw0 : Nat) (laterDraws : List Nat) :
    PostingSchedule :=
  ⟨getRandomInterval minMs maxMs draw0,
   laterDraws.map (getRandomInterval minMs maxMs)⟩

/-- The delays between consecutive firings of a `setInterval` timer: always
the single period it was armed with. -/
def interFiringDelays (s : PostingSchedule) (n : Nat) : List Nat :=
  List.replicate n s.timerPeriod

/-- The mutable fields of `NotificationsClient` touched by its `checkItems`
(`notifications.ts`): the re-entrancy flag and dedup set inherited from
`BaseMonitorClient`, the persisted-memory collaborator (as the set of item
ids it holds), and `lastCheckedNotificationId`. -/
structure NotifState where
  isProcessing : Bool
  processedItems : List Nat
  memory : List Nat
  lastCheckedNotificationId : Option Nat
deriving DecidableEq, Repr

/-- Effect of handling one fresh notification (`notifications.ts` lines
57-62): `handleNotification` runs (its memory write succeeding when
`persistOk`, which also marks the id processed inside `storeInMemory`),
then `lastCheckedNotificationId` is updated and the id added to
`processedItems`. -/
def notifStep (persistOk : Nat → Bool) (st : NotifState) (n : Nat) :
    NotifState :=
  let afterStore :=
    if persistOk n then
      { st with memory := n :: st.memory,
                processedItems := n :: st.processedItems }
    else st
  { afterStore with
      lastCheckedNotificationId := some n,
      processedItems := n :: afterStore.processedItems }

/-- Body of the `for`-loop in `NotificationsClient.checkItems`
(`notifications.ts` lines 39-67), iterating over the already-reversed
notification list.  `persistOk id` says whether `storeInMemory` actually
stores the notification (it skips empty content).  Returns the final state
and the ordered trace of notifications handed to `handleNotification`
(the action executor). -/
def checkNotifLoop (persistOk : Nat → Bool) :
    NotifState → List Nat → NotifState × List Nat
  | st, [] => (st, [])
  | st, n :: rest =>
    if n ∈ st.processedItems then checkNotifLoop persistOk st rest
    else if n ∈ st.memory then
      checkNotifLoop persistOk { st with processedItems := n :: st.processedItems } rest
    else
      ((checkNotifLoop persistOk (notifStep persistOk st n) rest).1,
       n :: (checkNotifLoop persistOk (notifStep persistOk st n) rest).2)

/-- Method `NotificationsClient.checkItems` (`notifications.ts` lines 26-74): no-op
under the re-entrancy guard, otherwise reverse the newest-first fetch and
run the loop body over it. -/
def checkNotifItems (persistOk : Nat → Bool) (st : NotifState)
    (notifications : List Nat) : NotifState × List Nat :=
  if st.isProcessing then (st, [])
  else checkNotifLoop persistOk st notifications.reverse

/-- A fetched timeline post as used by `SearchClient`: its id and its HTML
content string. -/
structure Post where
  id : Nat
  content : String
deriving DecidableEq, Repr

/-- The mutable fields of `SearchClient` touched by monitoring one target
user: the watermark entry of `lastCheckedPosts` for that username,
`actedOnPosts`, `processedItems`, and the persisted-memory collaborator. -/
structure SearchState where
  lastCheckedPost : Option Nat
  actedOnPosts : List Nat
  processedItems : List Nat
  memory : List Nat
deriving DecidableEq, Repr

/-- The JavaScript guard `!content?.trim()` holds exactly when the string
consists solely of whitespace (its trim is empty). -/
def isBlank (s : String) : Bool := s.data.all Char.isWhitespace

/-- Function `processContent` (`utils/content.ts`, the external text-cleanup and
summarization collaborator) is a parameter `pc`; `storeInMemory`
(`base-monitor.ts` lines 397-452) skips storage when the raw or processed
content is blank, and otherwise creates the memory record and marks the id
processed. -/
def storeInMemory (pc : String → String) (st : SearchState) (id : Nat)
    (content : String) : SearchState :=
  if isBlank content then st
  else if isBlank (pc content) then st
  else { st with memory := id :: st.memory, processedItems := id :: st.processedItems }

/-- Method `SearchClient.processPost` (`search.ts` lines 406-504).  The
`generateTweetActions` decision and the platform-call outcomes for the post
are supplied by `actionsFor`.  Returns the new state and the trace of posts
passed to `handlePostActions` (the action executor): empty unless
`shouldTakeActions` held and the post was not already acted on. -/
def processPost (pc : String → String)
    (actionsFor : Nat → ActionRequest × ActionOracle) (st : SearchState)
    (p : Post) (shouldTakeActions : Bool) : SearchState × List Nat :=
  if p.id ∈ st.memory then
    ({ st with processedItems := p.id :: st.processedItems }, [])
  else if shouldTakeActions && p.id ∉ st.actedOnPosts then
    let ex := (handlePostActionsSearch (actionsFor p.id).1
      (actionsFor p.id).2).executedActions
    let st1 := if ex.isEmpty then st
      else { st with actedOnPosts := p.id :: st.actedOnPosts }
    (storeInMemory pc st1 p.id p.content, [p.id])
  else
    (storeInMemory pc st p.id p.content, [])

/-- Iterate `processPost` over a fetched post list, accumulating the action
executor trace. -/
def processPosts (pc : String → String)
    (actionsFor : Nat → ActionRequest × ActionOracle)
    (shouldAct : Post → Bool) :
    SearchState → List Post → SearchState × List Nat
  | st, [] => (st, [])
  | st, p :: rest =>
    let (st1, tr1) := processPost pc actionsFor st p (shouldAct p)
    let (st2, tr2) := processPosts pc actionsFor shouldAct st1 rest
    (st2, tr1 ++ tr2)

/-- One target user's iteration of `SearchClient.checkItems` (`search.ts`
lines 360-392): an empty fetch is skipped; on the first fetch for the user
(no watermark) every post is processed with `shouldTakeActions = false`;
otherwise a post is eligible exactly when its id exceeds the watermark.
Afterwards the watermark is set to `posts[0].id`, the first element of the
fetch. -/
def checkItemsForUser (pc : String → String)
    (actionsFor : Nat → ActionRequest × ActionOracle) (st : SearchState)
    (posts : List Post) : SearchState × List Nat :=
  match posts with
  | [] => (st, [])
  | first :: _ =>
    match st.lastCheckedPost with
    | none =>
      let (st1, tr) := processPosts pc actionsFor (fun _ => false) st posts
      ({ st1 with lastCheckedPost := some first.id }, tr)
    | some lastId =>
      let (st1, tr) := processPosts pc actionsFor (fun p => lastId < p.id) st posts
      ({ st1 with lastCheckedPost := some first.id }, tr)

/-- Byte sequences (Node `Buffer`s): naturals below 256. -/
abbrev Bytes := List Nat

/-- The sixteen lowercase hex digits, in value order. -/
def hexDigits : List Char := "0123456789abcdef".data

/-- Hex digit of a value below 16. -/
def hexDigit (n : Nat) : Char := hexDigits.getD n '0'

/-- The value of a hex digit character. -/
def hexVal (c : Char) : Nat := hexDigits.indexOf c

/-- Node `Buffer.toString('hex')` on a single byte: two hex digits. -/
def hexEncodeByte (b : Nat) : List Char := [hexDigit (b / 16), hexDigit (b % 16)]

/-- Node `Buffer.toString('hex')` on a byte sequence. -/
def hexEncode (bs : Bytes) : List Char := (bs.map hexEncodeByte).flatten

/-- Node `Buffer.from(s, 'hex')`: decode pairs of hex digits back into bytes. -/
def hexDecode : List Char → Bytes
  | c1 :: c2 :: rest => (hexVal c1 * 16 + hexVal c2) :: hexDecode rest
  | _ => []

/-- JavaScript `String.prototype.split(':')` on a character list. -/
def splitOnColon : List Char → List (List Char)
  | [] => [[]]
  | c :: rest =>
    if c = ':' then [] :: splitOnColon rest
    else
      match splitOnColon rest with
      | [] => [[c]]
      | g :: gs => (c :: g) :: gs

/-- Method `EncryptionService.encrypt` (`utils/encryption.ts` lines 74-94).  The
AES-256-GCM core from Node `crypto` (an external library) is the parameter
`core`, mapping key, iv and plaintext bytes to ciphertext bytes and auth
tag; the 16 random iv bytes are a parameter.  Throws (returns `none`) when
the service is uninitialized; otherwise produces the
`iv:authTag:ciphertext` hex triple. -/
def encrypt (core : Bytes → Bytes → Bytes → Bytes × Bytes)
    (encryptionKey : Option Bytes) (iv : Bytes) (text : Bytes) :
    Option (List Char) :=
  match encryptionKey with
  | none => none
  | some key =>
    let (encrypted, authTag) := core key iv text
    some (hexEncode iv ++ ':' :: (hexEncode authTag ++ ':' :: hexEncode encrypted))

/-- Method `EncryptionService.decrypt` (`utils/encryption.ts` lines 96-117).  The
GCM decipher core `core` maps key, iv, auth tag and ciphertext to the
plaintext, or `none` when authentication fails (the decipher throws).
Throws (`none`) when uninitialized or when the payload does not split into
at least the three expected parts. -/
def decrypt (core : Bytes → Bytes → Bytes → Bytes → Option Bytes)
    (encryptionKey : Option Bytes) (encryptedData : List Char) :
    Option Bytes :=
  match encryptionKey with
  | none => none
  | some key =>
    match splitOnColon encryptedData with
    | ivHex :: authTagHex :: encryptedText :: _ =>
      core key (hexDecode ivHex) (hexDecode authTagHex) (hexDecode encryptedText)
    | _ => none

/-- C7: with `retryLimit = 3` and every login attempt failing, `init` sleeps
2000 ms after the first failed attempt and 4000 ms after the second (the
delay doubles, `2^attempt` seconds), and after the third failed attempt
raises the login-exhausted error with no further wait. -/
theorem claim_C7 :
    init 3 none [false, false, false] = ([2000, 4000], .loginExhausted) := by
  decide

/-- C8: when the head entry of the outbox queue fails to post, the drain
tick leaves the queue exactly as it was, with the failed entry still at the
head. -/
theorem claim_C8 (createPostOk : TruthSocialPostOptions → Bool)
    (st : PostClientState) (p : TruthSocialPostOptions)
    (rest : List TruthSocialPostOptions) (hpost : st.isPosting = true)
    (hq : st.postQueue = p :: rest) (hfail : createPostOk p = false) :
    (processNextPost createPostOk st).postQueue = p :: rest := by
  simp [processNextPost, hpost, hq, hfail]

/-- Witness for C8 at a concrete one-entry queue whose post creation
throws. -/
theorem claim_C8_witness :
    (processNextPost (fun _ => false)
        ⟨true, [⟨"hello", none, none, none⟩]⟩).postQueue =
      [⟨"hello", none, none, none⟩] :=
  claim_C8 (fun _ => false) ⟨true, [⟨"hello", none, none, none⟩]⟩
    ⟨"hello", none, none, none⟩ [] rfl rfl rfl

/-- C1 counterexample: after a 401 and a 401 on the retried request, the
client does NOT propagate an error; it re-logs-in again and issues a third
request, which here succeeds.  This refutes "if the retried request also
yields 401, the error propagates to the caller without any further retry
loop". -/
theorem claim_C1_counterexample :
    makeAuthenticatedRequest
        [⟨false, 401⟩, ⟨false, 401⟩, ⟨true, 200⟩] [true, true] =
      (.ok 200, 3) := by
  decide

/-- C1 amended: on HTTP 401 the client re-runs login and retries the
original request recursively with NO bound: every 401 response, including
one on a retried request, triggers another re-login and retry (first
conjunct), and after any number of consecutive 401 responses with
successful re-logins the client has still not propagated an error — it is
about to issue yet another request (second conjunct). -/
theorem claim_C1_amended :
    (∀ (rest : List Resp) (ls : List Bool),
        makeAuthenticatedRequest (⟨false, 401⟩ :: rest) (true :: ls) =
          ((makeAuthenticatedRequest rest ls).1,
           (makeAuthenticatedRequest rest ls).2 + 1)) ∧
    (∀ n : Nat,
        (makeAuthenticatedRequest (List.replicate n ⟨false, 401⟩)
            (List.replicate n true)).1 = .oracleOut) := by
  constructor
  · intro rest ls
    simp [makeAuthenticatedRequest]
  · intro n
    induction n with
    | zero => decide
    | succ k ih => simpa [List.replicate_succ, makeAuthenticatedRequest]

/-- C9: the posting timer's period is drawn once; `setInterval` is never
re-armed.  With `minInterval = 90`, `maxInterval = 180`, an initial draw of
10 and a later in-callback draw of 60, both inter-firing delays equal the
initial period 100, while the code's own "Next post scheduled for" log line
is computed from the unused fresh draw (150 ≠ 100). -/
theorem claim_C9_fixed_period :
    interFiringDelays (startPostingLoopSchedule 90 180 10 [60]) 2 = [100, 100] ∧
    (startPostingLoopSchedule 90 180 10 [60]).loggedNextIntervals = [150] ∧
    (150 : Nat) ≠ 100 := by
  decide

/-- C2: evaluation at the failing input.  Requested actions: favourite,
reblog, quote and reply; favourite succeeds; reblog throws HTTP 404 with
error code GROUP_NOT_FOUND (a GroupRestricted failure); generation yields
content for quote and reply and both posts would succeed.  The
base-monitor variant — the one the notifications client inherits — still
attempts and executes quote and reply, because its gating check
`isGroupError({})` is vacuously false; the search variant implements the
claimed behaviour (quote and reply never attempted, FAVOURITE still
reported). -/
theorem claim_C2_code_bug_eval :
    (handlePostActionsBaseMonitor ⟨true, true, true, true⟩
        ⟨.ok, .err ⟨some 404, some "GROUP_NOT_FOUND", false, false⟩,
         some "generated quote", .ok, some "generated reply", .ok⟩).attempted =
      [.favourite, .reblog, .quote, .reply] ∧
    (handlePostActionsBaseMonitor ⟨true, true, true, true⟩
        ⟨.ok, .err ⟨some 404, some "GROUP_NOT_FOUND", false, false⟩,
         some "generated quote", .ok, some "generated reply", .ok⟩).executedActions =
      [.favourite, .quote, .reply] ∧
    (handlePostActionsSearch ⟨true, true, true, true⟩
        ⟨.ok, .err ⟨some 404, some "GROUP_NOT_FOUND", false, false⟩,
         some "generated quote", .ok, some "generated reply", .ok⟩).attempted =
      [.favourite, .reblog] ∧
    (handlePostActionsSearch ⟨true, true, true, true⟩
        ⟨.ok, .err ⟨some 404, some "GROUP_NOT_FOUND", false, false⟩,
         some "generated quote", .ok, some "generated reply", .ok⟩).executedActions =
      [.favourite] := by
  refine ⟨rfl, rfl, rfl, rfl⟩

/-- C4 counterexample: a follow notification carrying a status, with
follow-back and favourite requested and both platform calls succeeding.
The follow-back request is issued FIRST, before the favourite request, so
follow-back is not last and is attempted before the favourite action. -/
theorem claim_C4_counterexample :
    (executeNotificationActions true true true .ok ⟨true, false, false, false⟩
        ⟨.ok, .ok, none, .ok, none, .ok⟩).2 = [.followBack, .favourite] ∧
    (executeNotificationActions true true true .ok ⟨true, false, false, false⟩
        ⟨.ok, .ok, none, .ok, none, .ok⟩).1 = [.followBack, .favourite] := by
  refine ⟨rfl, rfl⟩

lemma favouriteStepBM_eq (st : ExecState) (r : AttemptResult) :
    favouriteStepBM st r =
      ⟨st.executedActions ++ (if handleSimpleAction r then [.favourite] else []),
       st.attempted ++ [.favourite], st.isGroupPost⟩ := by
  cases r <;> simp [favouriteStepBM, handleSimpleAction, isGroupError, emptyErr]

lemma reblogStepBM_eq (st : ExecState) (r : AttemptResult) :
    reblogStepBM st r =
      ⟨st.executedActions ++ (if handleSimpleAction r then [.reblog] else []),
       st.attempted ++ [.reblog], st.isGroupPost⟩ := by
  cases r <;> simp [reblogStepBM, handleSimpleAction, isGroupError, emptyErr]

lemma quoteStepBM_eq (st : ExecState) (gen : Option String) (r : AttemptResult) :
    quoteStepBM st gen r =
      ⟨st.executedActions ++
         (if (handleGenAction gen r).1.isSome then [.quote] else []),
       st.attempted ++ (if gen.isSome then [.quote] else []),
       st.isGroupPost⟩ := by
  cases gen <;> cases r <;> simp [quoteStepBM, handleGenAction]

lemma replyStepBM_eq (st : ExecState) (gen : Option String) (r : AttemptResult) :
    replyStepBM st gen r =
      ⟨st.executedActions ++
         (if (handleGenAction gen r).1.isSome then [.reply] else []),
       st.attempted ++ (if gen.isSome then [.reply] else []),
       st.isGroupPost⟩ := by
  cases gen <;> cases r <;> simp [replyStepBM, handleGenAction]

lemma handlePostActionsBaseMonitor_attempted (req : ActionRequest)
    (o : ActionOracle) :
    (handlePostActionsBaseMonitor req o).attempted =
      (if req.favourite then [Action.favourite] else []) ++
      (if req.reblog then [Action.reblog] else []) ++
      (if req.quote && o.quoteGen.isSome then [Action.quote] else []) ++
      (if req.reply && o.replyGen.isSome then [Action.reply] else []) := by
  cases hf : req.favourite <;> cases hr : req.reblog <;>
    cases hq : req.quote <;> cases hp : req.reply <;>
      simp [handlePostActionsBaseMonitor, hf, hr, hq, hp, favouriteStepBM_eq,
        reblogStepBM_eq, quoteStepBM_eq, replyStepBM_eq]

/-- C4 amended: `executeNotificationActions` attempts actions in the fixed
order follow-back FIRST (for follow notifications with follow-back
requested), then favourite, then reblog, then quote, then reply; in
particular follow-back, when attempted, always precedes the
favourite/reblog/quote/reply requests on the same notification. -/
theorem claim_C4_amended (isFollow followBack hasStatus : Bool)
    (followResult : AttemptResult) (req : ActionRequest) (o : ActionOracle) :
    (executeNotificationActions isFollow followBack hasStatus followResult
        req o).2 =
      (if isFollow && followBack then [Action.followBack] else []) ++
      (if hasStatus then
        (if req.favourite then [Action.favourite] else []) ++
        (if req.reblog then [Action.reblog] else []) ++
        (if req.quote && o.quoteGen.isSome then [Action.quote] else []) ++
        (if req.reply && o.replyGen.isSome then [Action.reply] else [])
      else []) := by
  cases hs : hasStatus
  · simp [executeNotificationActions, hs]
  · simp [executeNotificationActions, hs, handlePostActionsBaseMonitor_attempted]

/-- C3 counterexample: with the stored watermark at 9, a completed fetch
returning the out-of-order list [3, 7] replaces the watermark with 3 — a
value older than the current watermark 9 and not the newest id observed in
the fetch (7). -/
theorem claim_C3_counterexample :
    ((checkItemsForUser (fun s => s)
        (fun _ => (⟨false, false, false, false⟩, ⟨.ok, .ok, none, .ok, none, .ok⟩))
        ⟨some 9, [], [], []⟩ [⟨3, "a"⟩, ⟨7, "b"⟩]).1.lastCheckedPost = some 3) ∧
    (3 : Nat) < 9 ∧ (3 : Nat) < 7 := by
  refine ⟨rfl, by decide, by decide⟩

/-- C3 amended: after a completed fetch the watermark is unconditionally
replaced by the id of the FIRST item of the fetched list (the newest one
only under the platform's newest-first ordering); it is not compared with
its current value and can regress when the fetch's first item is older.
An empty fetch leaves the state untouched. -/
theorem claim_C3_amended (pc : String → String)
    (actionsFor : Nat → ActionRequest × ActionOracle) (st : SearchState)
    (p : Post) (rest : List Post) :
    ((checkItemsForUser pc actionsFor st (p :: rest)).1.lastCheckedPost =
      some p.id) ∧
    (checkItemsForUser pc actionsFor st []).1 = st := by
  constructor
  · unfold checkItemsForUser
    cases st.lastCheckedPost <;> simp
  · rfl

lemma processPost_false_trace (pc : String → String)
    (af : Nat → ActionRequest × ActionOracle) (st : SearchState) (p : Post) :
    (processPost pc af st p false).2 = [] := by
  unfold processPost
  split <;> simp

lemma processPosts_noAct_trace (pc : String → String)
    (af : Nat → ActionRequest × ActionOracle) (posts : List Post) :
    ∀ st, (processPosts pc af (fun _ => false) st posts).2 = [] := by
  induction posts with
  | nil => intro st; rfl
  | cons p rest ih =>
    intro st
    simp [processPosts, processPost_false_trace, ih]

lemma processPost_memory_mono (pc : String → String)
    (af : Nat → ActionRequest × ActionOracle) (st : SearchState) (p : Post)
    (b : Bool) (a : Nat) (h : a ∈ st.memory) :
    a ∈ (processPost pc af st p b).1.memory := by
  unfold processPost storeInMemory
  split_ifs <;> simp_all [apply_ite]

lemma processPost_memory_self (pc : String → String)
    (af : Nat → ActionRequest × ActionOracle) (st : SearchState) (p : Post)
    (b : Bool) (hc : isBlank p.content = false)
    (hpc : isBlank (pc p.content) = false) :
    p.id ∈ (processPost pc af st p b).1.memory := by
  unfold processPost storeInMemory
  split_ifs <;> simp_all [apply_ite]

lemma processPosts_memory_mono (pc : String → String)
    (af : Nat → ActionRequest × ActionOracle) (sa : Post → Bool)
    (posts : List Post) :
    ∀ st a, a ∈ st.memory → a ∈ (processPosts pc af sa st posts).1.memory := by
  induction posts with
  | nil => intro st a h; simpa [processPosts]
  | cons p rest ih =>
    intro st a h
    simp only [processPosts]
    exact ih _ a (processPost_memory_mono pc af st p (sa p) a h)

lemma processPosts_memory_each (pc : String → String)
    (af : Nat → ActionRequest × ActionOracle) (sa : Post → Bool)
    (posts : List Post) :
    ∀ st, ∀ q ∈ posts, isBlank q.content = false →
      isBlank (pc q.content) = false →
      q.id ∈ (processPosts pc af sa st posts).1.memory := by
  induction posts with
  | nil => intro st q hq; cases hq
  | cons p rest ih =>
    intro st q hq hc hpc
    rcases List.mem_cons.mp hq with hq2 | hq2
    · subst hq2
      simp only [processPosts]
      refine processPosts_memory_mono pc af sa rest _ q.id ?_
      exact processPost_memory_self pc af st q (sa q) hc hpc
    · simp only [processPosts]
      exact ih _ q hq2 hc hpc

/-- C6 counterexample, in two parts.  First, a first-contact fetch of one
item whose content is blank (a single space): `storeInMemory` skips it, so
the memory stays empty and not all N items are persisted.  Second, a
first-contact fetch returning the out-of-order list [3, 7]: the watermark
becomes 3, the id of the first fetched item, not the newest id among the N
(which is 7). -/
theorem claim_C6_counterexample :
    ((checkItemsForUser (fun s => s)
        (fun _ => (⟨false, false, false, false⟩, ⟨.ok, .ok, none, .ok, none, .ok⟩))
        ⟨none, [], [], []⟩ [⟨5, " "⟩]).1.memory = []) ∧
    ((checkItemsForUser (fun s => s)
        (fun _ => (⟨false, false, false, false⟩, ⟨.ok, .ok, none, .ok, none, .ok⟩))
        ⟨none, [], [], []⟩ [⟨3, "a"⟩, ⟨7, "b"⟩]).1.lastCheckedPost = some 3) ∧
    (3 : Nat) < 7 := by
  refine ⟨rfl, rfl, by decide⟩

/-- C6 amended: first contact with a target user (no prior watermark, any
non-empty fetch).  The iteration passes zero posts to the action executor;
every fetched item whose raw and processed content are non-blank is
persisted to memory (`storeInMemory` skips blank-content items); and the
watermark for that username becomes the id of the FIRST fetched item,
which is the newest id among the N only under the platform's newest-first
ordering. -/
theorem claim_C6_amended (pc : String → String)
    (af : Nat → ActionRequest × ActionOracle) (st : SearchState) (p : Post)
    (rest : List Post) (hwm : st.lastCheckedPost = none) :
    ((checkItemsForUser pc af st (p :: rest)).2 = []) ∧
    (∀ q ∈ p :: rest, isBlank q.content = false →
      isBlank (pc q.content) = false →
      q.id ∈ (checkItemsForUser pc af st (p :: rest)).1.memory) ∧
    ((checkItemsForUser pc af st (p :: rest)).1.lastCheckedPost = some p.id) := by
  have hmain : checkItemsForUser pc af st (p :: rest) =
      ({ (processPosts pc af (fun _ => false) st (p :: rest)).1 with
          lastCheckedPost := some p.id },
       (processPosts pc af (fun _ => false) st (p :: rest)).2) := by
    simp [checkItemsForUser, hwm]
  refine ⟨?_, ?_, ?_⟩
  · rw [hmain]
    exact processPosts_noAct_trace pc af (p :: rest) st
  · intro q hq hc hpc
    rw [hmain]
    exact processPosts_memory_each pc af (fun _ => false) (p :: rest) st q hq hc hpc
  · rw [hmain]

/-- Witness for the amended C6 at a concrete first fetch of two posts. -/
theorem claim_C6_witness :
    ((checkItemsForUser (fun s => s)
        (fun _ => (⟨false, false, false, false⟩, ⟨.ok, .ok, none, .ok, none, .ok⟩))
        ⟨none, [], [], []⟩ [⟨5, "hi"⟩, ⟨3, "yo"⟩]).2 = []) ∧
    (∀ q ∈ [Post.mk 5 "hi", Post.mk 3 "yo"],
      isBlank q.content = false → isBlank ((fun s => s) q.content) = false →
      q.id ∈ (checkItemsForUser (fun s => s)
        (fun _ => (⟨false, false, false, false⟩, ⟨.ok, .ok, none, .ok, none, .ok⟩))
        ⟨none, [], [], []⟩ [⟨5, "hi"⟩, ⟨3, "yo"⟩]).1.memory) ∧
    ((checkItemsForUser (fun s => s)
        (fun _ => (⟨false, false, false, false⟩, ⟨.ok, .ok, none, .ok, none, .ok⟩))
        ⟨none, [], [], []⟩ [⟨5, "hi"⟩, ⟨3, "yo"⟩]).1.lastCheckedPost = some 5) :=
  claim_C6_amended (fun s => s)
    (fun _ => (⟨false, false, false, false⟩, ⟨.ok, .ok, none, .ok, none, .ok⟩))
    ⟨none, [], [], []⟩ ⟨5, "hi"⟩ [⟨3, "yo"⟩] rfl

lemma notifStep_processed_self (persistOk : Nat → Bool) (st : NotifState)
    (n : Nat) : n ∈ (notifStep persistOk st n).processedItems := by
  simp [notifStep]

lemma notifStep_processed_mono (persistOk : Nat → Bool) (st : NotifState)
    (n a : Nat) (h : a ∈ st.processedItems) :
    a ∈ (notifStep persistOk st n).processedItems := by
  simp only [notifStep]
  split_ifs <;> simp_all

lemma notifStep_processed_fresh (persistOk : Nat → Bool) (st : NotifState)
    (n a : Nat) (hne : a ≠ n) (h : a ∉ st.processedItems) :
    a ∉ (notifStep persistOk st n).processedItems := by
  simp only [notifStep]
  split_ifs <;> simp_all

lemma notifStep_memory_fresh (persistOk : Nat → Bool) (st : NotifState)
    (n a : Nat) (hne : a ≠ n) (h : a ∉ st.memory) :
    a ∉ (notifStep persistOk st n).memory := by
  simp only [notifStep]
  split_ifs <;> simp_all

lemma checkNotifLoop_fresh (persistOk : Nat → Bool) (st : NotifState)
    (n : Nat) (rest : List Nat) (h1 : n ∉ st.processedItems)
    (h2 : n ∉ st.memory) :
    checkNotifLoop persistOk st (n :: rest) =
      ((checkNotifLoop persistOk (notifStep persistOk st n) rest).1,
       n :: (checkNotifLoop persistOk (notifStep persistOk st n) rest).2) := by
  simp [checkNotifLoop, h1, h2]

lemma checkNotifLoop_processed_mono (persistOk : Nat → Bool) (l : List Nat) :
    ∀ st a, a ∈ st.processedItems →
      a ∈ (checkNotifLoop persistOk st l).1.processedItems := by
  induction l with
  | nil => intro st a h; simpa [checkNotifLoop]
  | cons n rest ih =>
    intro st a h
    by_cases h1 : n ∈ st.processedItems
    · simpa [checkNotifLoop, h1] using ih st a h
    · by_cases h2 : n ∈ st.memory
      · simp only [checkNotifLoop, if_neg h1, if_pos h2]
        exact ih _ a (List.mem_cons_of_mem n h)
      · simp only [checkNotifLoop, if_neg h1, if_neg h2]
        exact ih _ a (notifStep_processed_mono persistOk st n a h)

lemma checkNotifLoop_no_reaction (persistOk : Nat → Bool) (l : List Nat) :
    ∀ st a, (a ∈ st.processedItems ∨ a ∈ st.memory) →
      a ∉ (checkNotifLoop persistOk st l).2 := by
  induction l with
  | nil => intro st a _; simp [checkNotifLoop]
  | cons n rest ih =>
    intro st a h
    by_cases h1 : n ∈ st.processedItems
    · simpa [checkNotifLoop, h1] using ih st a h
    · by_cases h2 : n ∈ st.memory
      · simp only [checkNotifLoop, if_neg h1, if_pos h2]
        refine ih _ a ?_
        rcases h with h | h
        · exact Or.inl (List.mem_cons_of_mem n h)
        · exact Or.inr h
      · have hne : a ≠ n := by
          rintro rfl
          rcases h with h | h
          · exact h1 h
          · exact h2 h
        simp only [checkNotifLoop, if_neg h1, if_neg h2, List.mem_cons]
        push_neg
        refine ⟨hne, ih _ a ?_⟩
        rcases h with h | h
        · exact Or.inl (notifStep_processed_mono persistOk st n a h)
        · right
          simp only [notifStep]
          split_ifs <;> simp_all

/-- C5: a notification fetch returning `[n3, n2, n1]` (newest first, none
previously seen) leads to the action executor being invoked for `n1`, then
`n2`, then `n3` in that order, after which `processedItems` contains all
three; and any id already in the processed set or already found in
persisted memory is never handed to the executor in any iteration. -/
theorem claim_C5 (persistOk : Nat → Bool) (st : NotifState) (n1 n2 n3 : Nat)
    (hproc : st.isProcessing = false) (h12 : n1 ≠ n2) (h13 : n1 ≠ n3)
    (h23 : n2 ≠ n3)
    (hp1 : n1 ∉ st.processedItems) (hm1 : n1 ∉ st.memory)
    (hp2 : n2 ∉ st.processedItems) (hm2 : n2 ∉ st.memory)
    (hp3 : n3 ∉ st.processedItems) (hm3 : n3 ∉ st.memory) :
    ((checkNotifItems persistOk st [n3, n2, n1]).2 = [n1, n2, n3]) ∧
    (n1 ∈ (checkNotifItems persistOk st [n3, n2, n1]).1.processedItems) ∧
    (n2 ∈ (checkNotifItems persistOk st [n3, n2, n1]).1.processedItems) ∧
    (n3 ∈ (checkNotifItems persistOk st [n3, n2, n1]).1.processedItems) ∧
    (∀ (ns : List Nat) (a : Nat),
      a ∈ st.processedItems ∨ a ∈ st.memory →
        a ∉ (checkNotifItems persistOk st ns).2) := by
  have hrev : checkNotifItems persistOk st [n3, n2, n1] =
      checkNotifLoop persistOk st [n1, n2, n3] := by
    simp [checkNotifItems, hproc]
  set st1 := notifStep persistOk st n1 with hst1
  have hp2a : n2 ∉ st1.processedItems :=
    notifStep_processed_fresh persistOk st n1 n2 (Ne.symm h12) hp2
  have hm2a : n2 ∉ st1.memory :=
    notifStep_memory_fresh persistOk st n1 n2 (Ne.symm h12) hm2
  have hp3a : n3 ∉ st1.processedItems :=
    notifStep_processed_fresh persistOk st n1 n3 (Ne.symm h13) hp3
  have hm3a : n3 ∉ st1.memory :=
    notifStep_memory_fresh persistOk st n1 n3 (Ne.symm h13) hm3
  set st2 := notifStep persistOk st1 n2 with hst2
  have hp3b : n3 ∉ st2.processedItems :=
    notifStep_processed_fresh persistOk st1 n2 n3 (Ne.symm h23) hp3a
  have hm3b : n3 ∉ st2.memory :=
    notifStep_memory_fresh persistOk st1 n2 n3 (Ne.symm h23) hm3a
  have hloop : checkNotifLoop persistOk st [n1, n2, n3] =
      ((notifStep persistOk st2 n3), [n1, n2, n3]) := by
    rw [checkNotifLoop_fresh persistOk st n1 [n2, n3] hp1 hm1, ← hst1,
      checkNotifLoop_fresh persistOk st1 n2 [n3] hp2a hm2a, ← hst2,
      checkNotifLoop_fresh persistOk st2 n3 [] hp3b hm3b]
    rfl
  refine ⟨?_, ?_, ?_, ?_, ?_⟩
  · rw [hrev, hloop]
  · rw [hrev, hloop]
    exact notifStep_processed_mono _ _ _ _
      (notifStep_processed_mono _ _ _ _ (notifStep_processed_self _ _ _))
  · rw [hrev, hloop]
    exact notifStep_processed_mono _ _ _ _ (notifStep_processed_self _ _ _)
  · rw [hrev, hloop]
    exact notifStep_processed_self _ _ _
  · intro ns a ha
    simp only [checkNotifItems, hproc, Bool.false_eq_true, if_false]
    exact checkNotifLoop_no_reaction persistOk ns.reverse st a ha

/-- Witness for C5 at the concrete fetch `[3, 2, 1]` from a fresh state. -/
theorem claim_C5_witness :
    ((checkNotifItems (fun _ => true) ⟨false, [], [], none⟩ [3, 2, 1]).2 =
      [1, 2, 3]) ∧
    (1 ∈ (checkNotifItems (fun _ => true) ⟨false, [], [], none⟩
      [3, 2, 1]).1.processedItems) ∧
    (2 ∈ (checkNotifItems (fun _ => true) ⟨false, [], [], none⟩
      [3, 2, 1]).1.processedItems) ∧
    (3 ∈ (checkNotifItems (fun _ => true) ⟨false, [], [], none⟩
      [3, 2, 1]).1.processedItems) ∧
    (∀ (ns : List Nat) (a : Nat),
      a ∈ ([] : List Nat) ∨ a ∈ ([] : List Nat) →
        a ∉ (checkNotifItems (fun _ => true) ⟨false, [], [], none⟩ ns).2) :=
  claim_C5 (fun _ => true) ⟨false, [], [], none⟩ 1 2 3 rfl
    (by decide) (by decide) (by decide)
    (by simp) (by simp) (by simp) (by simp) (by simp) (by simp)

lemma hexVal_hexDigit : ∀ n, n < 16 → hexVal (hexDigit n) = n := by
  decide

lemma hexDigit_ne_colon : ∀ n, n < 16 → hexDigit n ≠ ':' := by
  decide

lemma colon_not_mem_hexEncode (bs : Bytes) (h : ∀ b ∈ bs, b < 256) :
    ':' ∉ hexEncode bs := by
  induction bs with
  | nil => simp [hexEncode]
  | cons b rest ih =>
    have hb : b < 256 := h b (List.mem_cons_self b rest)
    have hdiv : b / 16 < 16 := Nat.div_lt_of_lt_mul hb
    have hmod : b % 16 < 16 := Nat.mod_lt b (by norm_num)
    have hrest := ih (fun x hx => h x (List.mem_cons_of_mem b hx))
    simp only [hexEncode, List.map_cons, List.flatten_cons, List.mem_append,
      hexEncodeByte, List.mem_cons, List.not_mem_nil, or_false, not_or]
    refine ⟨⟨?_, ?_⟩, ?_⟩
    · exact fun hc => hexDigit_ne_colon (b / 16) hdiv hc.symm
    · exact fun hc => hexDigit_ne_colon (b % 16) hmod hc.symm
    · simpa [hexEncode] using hrest

lemma hexDecode_hexEncode (bs : Bytes) (h : ∀ b ∈ bs, b < 256) :
    hexDecode (hexEncode bs) = bs := by
  induction bs with
  | nil => rfl
  | cons b rest ih =>
    have hb : b < 256 := h b (List.mem_cons_self b rest)
    have hdiv : b / 16 < 16 := Nat.div_lt_of_lt_mul hb
    have hmod : b % 16 < 16 := Nat.mod_lt b (by norm_num)
    have hrest := ih (fun x hx => h x (List.mem_cons_of_mem b hx))
    simp only [hexEncode, List.map_cons, List.flatten_cons, hexEncodeByte,
      List.cons_append, List.nil_append]
    rw [hexDecode, hexVal_hexDigit (b / 16) hdiv, hexVal_hexDigit (b % 16) hmod]
    rw [show hexDecode ((rest.map hexEncodeByte).flatten) = rest from hrest]
    congr 1
    omega

lemma splitOnColon_of_no_colon (c : List Char) (h : ':' ∉ c) :
    splitOnColon c = [c] := by
  induction c with
  | nil => rfl
  | cons x rest ih =>
    have hx : x ≠ ':' := fun hc => h (hc ▸ List.mem_cons_self x rest)
    have hr := ih (fun hc => h (List.mem_cons_of_mem x hc))
    simp [splitOnColon, hx, hr]

lemma splitOnColon_append (a t : List Char) (ha : ':' ∉ a) :
    splitOnColon (a ++ ':' :: t) = a :: splitOnColon t := by
  induction a with
  | nil => simp [splitOnColon]
  | cons x rest ih =>
    have hx : x ≠ ':' := fun hc => ha (hc ▸ List.mem_cons_self x rest)
    have hr := ih (fun hc => ha (List.mem_cons_of_mem x hc))
    simp only [List.cons_append, splitOnColon, if_neg hx, List.append_eq, hr]

/-- C10: for every plaintext and every initialized encryption service,
decrypting the `iv:authTag:ciphertext` triple produced by `encrypt` under
the same key returns the original plaintext, provided the underlying
AES-256-GCM library satisfies its inversion contract at this input and
produces byte-valued output. -/
theorem claim_C10 (encCore : Bytes → Bytes → Bytes → Bytes × Bytes)
    (decCore : Bytes → Bytes → Bytes → Bytes → Option Bytes)
    (key iv text : Bytes) (hiv : ∀ b ∈ iv, b < 256)
    (hct : ∀ b ∈ (encCore key iv text).1, b < 256)
    (htag : ∀ b ∈ (encCore key iv text).2, b < 256)
    (hinv : decCore key iv (encCore key iv text).2 (encCore key iv text).1 =
      some text) :
    (encrypt encCore (some key) iv text).bind (decrypt decCore (some key)) =
      some text := by
  rcases henc : encCore key iv text with ⟨ct, tag⟩
  rw [henc] at hct htag hinv
  simp only [encrypt, henc, Option.some_bind, decrypt]
  rw [splitOnColon_append _ _ (colon_not_mem_hexEncode iv hiv),
    splitOnColon_append _ _ (colon_not_mem_hexEncode tag htag),
    splitOnColon_of_no_colon _ (colon_not_mem_hexEncode ct hct)]
  simp only [hexDecode_hexEncode iv hiv, hexDecode_hexEncode tag htag,
    hexDecode_hexEncode ct hct]
  exact hinv

/-- Witness for C10: the structural round trip at a concrete two-byte
plaintext, instantiating the cipher core with the identity cipher (which
satisfies the inversion contract at this input). -/
theorem claim_C10_witness :
    (encrypt (fun _ _ t => (t, [])) (some [1]) [0, 255] [104, 101]).bind
      (decrypt (fun _ _ _ ct => some ct) (some [1])) = some [104, 101] :=
  claim_C10 (fun _ _ t => (t, [])) (fun _ _ _ ct => some ct) [1] [0, 255]
    [104, 101] (by decide) (by decide) (by decide) rfl

end TruthSocial
